import Mathlib

/-!
Verification of the insurer field-mapping and ordered-persistence pipeline
(`insurances/services.py`, `insurances/serializers.py`, `insurances/models.py`).

The Python code is shallowly embedded as executable Lean definitions:

* strings are Lean `String` (a structure over `List Char`, so every string
  operation used here is structural and kernel-reducible);
* dates are `Nat` (only ordering and equality of dates matter to the code;
  `DateField` parsing is an external collaborator);
* the relational store is an explicit `DB` record of per-table lists, with
  Django's `get_or_create` / `create` and the declared unique constraints
  modelled directly;
* `@transaction.atomic` is modelled by the transactional semantics of the
  storage engine (an assumed external collaborator): the state produced by a
  failing step sequence is discarded and the caller keeps the pre-transaction
  state;
* Python exceptions are `Except String`.

Unicode caveats, noted where relevant: `str.lower` is modelled on ASCII (the
strategy names compared against are ASCII), and the regex class `\d` is
modelled as the ASCII digits (Python's `\d` also admits other Unicode decimal
digits, which the spec's word "digit" does not exclude either; no claim's
truth value depends on the non-ASCII digits).
-/

/-! ## Generic list/string helpers (models of Python primitives) -/

/-- Model of Python `str.lower` restricted to ASCII, applied characterwise
(`Char.toLower` lowercases exactly the ASCII range). -/
def strLower (s : String) : String :=
  String.mk (s.data.map Char.toLower)

/-- Substring test on character lists: `needle` occurs contiguously in `hay`. -/
def containsSub : List Char → List Char → Bool
  | [], needle => needle.isEmpty
  | h :: t, needle => needle.isPrefixOf (h :: t) || containsSub t needle

/-- Model of Python `needle in hay` on strings. -/
def pyInStr (needle hay : String) : Bool :=
  containsSub hay.data needle.data

/-- Association-list lookup by key: model of `data[k]` guarded by `k in data`
on a Python dict (first binding wins; dicts have unique keys). -/
def lookupKey (data : List (String × α)) (k : String) : Option α :=
  (data.find? (fun kv => kv.1 == k)).map (fun kv => kv.2)

/-- Model of Python `k in data` on a dict. -/
def hasKey (data : List (String × α)) (k : String) : Bool :=
  data.any (fun kv => kv.1 == k)

/-! ## Insurer resolver (`BaseInsuredDataSerializer.get_insurer_service`) -/

/-- The three service classes of `services.py`. -/
inductive ServiceKind where
  | pasargad
  | hekmat
  | default
deriving DecidableEq

/-- The `insurer_name` class attribute of each service
(`DefaultInsurerService.insurer_name = None`). -/
def insurerName : ServiceKind → Option String
  | .pasargad => some "pasargad"
  | .hekmat => some "hekmat"
  | .default => none

/-- The candidate list of `get_insurer_service`, in source order
(default last so that specific names take precedence). -/
def serviceList : List ServiceKind :=
  [ServiceKind.pasargad, ServiceKind.hekmat, ServiceKind.default]

/-- One iteration of the loop body of `get_insurer_service`: a service with a
truthy `insurer_name` matches when `insurer.lower() == insurer_name.lower()`;
a service without a declared name never matches by comparison. -/
def matchesService (insurer : String) (svc : ServiceKind) : Bool :=
  match insurerName svc with
  | some nm => strLower insurer == strLower nm
  | none => false

/-- Model of `BaseInsuredDataSerializer.get_insurer_service`: first matching service,
else the default fallback. Total: no path raises. -/
def getInsurerService (insurer : String) : ServiceKind :=
  match serviceList.find? (matchesService insurer) with
  | some svc => svc
  | none => ServiceKind.default

/-! ## Field mapper (`_map_keys` and the per-service class tables) -/

/-- Table `DefaultInsurerService.key_mapping`, in source (insertion) order.
The first component is the model (canonical) field, the second the declared
external key. -/
def defaultKeyMapping : List (String × String) :=
  [("insurer", "insurer"), ("first_name", "first_name"),
   ("last_name", "last_name"), ("email", "email"),
   ("phone_number", "phone_number"), ("national_id", "national_id"),
   ("birth_date", "birth_date"), ("father_name", "father_name"),
   ("place_of_issue", "place_of_issue"), ("insurer_id", "insurer_id"),
   ("policyholder_name", "policyholder_name"),
   ("policyholder_id", "policyholder_id"), ("start_date", "start_date"),
   ("end_date", "end_date"), ("policy_id", "policy_id"),
   ("confirmation_date", "confirmation_date"), ("plan_name", "plan_name"),
   ("plan_id", "plan_id"), ("insured_id", "insured_id")]

/-- Table `PasargadInsurerService.key_mapping` (textually identical to the default
one in the source). -/
def pasargadKeyMapping : List (String × String) :=
  defaultKeyMapping

/-- Table `HekmatInsurerService.key_mapping`: identity except that canonical
`first_name` declares external key `name` and `last_name` declares
`family_name`. -/
def hekmatKeyMapping : List (String × String) :=
  [("insurer", "insurer"), ("first_name", "name"),
   ("last_name", "family_name"), ("email", "email"),
   ("phone_number", "phone_number"), ("national_id", "national_id"),
   ("birth_date", "birth_date"), ("father_name", "father_name"),
   ("place_of_issue", "place_of_issue"), ("insurer_id", "insurer_id"),
   ("policyholder_name", "policyholder_name"),
   ("policyholder_id", "policyholder_id"), ("start_date", "start_date"),
   ("end_date", "end_date"), ("policy_id", "policy_id"),
   ("confirmation_date", "confirmation_date"), ("plan_name", "plan_name"),
   ("plan_id", "plan_id"), ("insured_id", "insured_id")]

/-- Set `DefaultInsurerService.mandatory_fields` (a Python set; only membership is
ever consulted, so a list model is faithful). -/
def defaultMandatory : List String :=
  ["insurer", "first_name", "last_name", "phone_number", "national_id",
   "birth_date", "insurer_id", "policyholder_name", "policyholder_id",
   "start_date", "end_date", "policy_id", "plan_name", "plan_id",
   "insured_id"]

/-- Set `PasargadInsurerService.mandatory_fields`: the default set plus `email`
(inserted after `last_name` in the source literal). -/
def pasargadMandatory : List String :=
  ["insurer", "first_name", "last_name", "email", "phone_number",
   "national_id", "birth_date", "insurer_id", "policyholder_name",
   "policyholder_id", "start_date", "end_date", "policy_id", "plan_name",
   "plan_id", "insured_id"]

/-- Set `HekmatInsurerService.mandatory_fields` (textually identical to the
default set in the source). -/
def hekmatMandatory : List String :=
  defaultMandatory

/-- Loop of `_map_keys` over the `key_mapping` entries, in order: when the
canonical key is present in the input dict its value is copied under the
canonical name; when it is absent and mandatory, a `ValidationError`
`Missing required field: <canonical>` aborts the whole loop (a Python
exception thrown mid-iteration); otherwise the key is skipped. Note that the
second component of each `key_mapping` entry — the declared external key — is
never consulted, exactly as in the source, which iterates `key_mapping.keys()`
only. -/
def mapKeysLoop (mf : List String) (data : List (String × α)) :
    List (String × String) → Except String (List (String × α))
  | [] => .ok []
  | (ck, _) :: rest =>
    match lookupKey data ck with
    | some v => Except.map (fun m => (ck, v) :: m) (mapKeysLoop mf data rest)
    | none =>
      if mf.contains ck then .error ("Missing required field: " ++ ck)
      else mapKeysLoop mf data rest

/-- Model of `_map_keys` of a service with key-mapping table `km` and mandatory set
`mf` applied to the raw input dict `data`. -/
def mapKeys (km : List (String × String)) (mf : List String)
    (data : List (String × α)) : Except String (List (String × α)) :=
  mapKeysLoop mf data km

/-- Key-mapping table of a given service class. -/
def svcKeyMapping : ServiceKind → List (String × String)
  | .pasargad => pasargadKeyMapping
  | .hekmat => hekmatKeyMapping
  | .default => defaultKeyMapping

/-- Mandatory-field set of a given service class. -/
def svcMandatory : ServiceKind → List String
  | .pasargad => pasargadMandatory
  | .hekmat => hekmatMandatory
  | .default => defaultMandatory

/-! ## Helper lemmas about the generic pieces -/

theorem containsMem {l : List String} {a : String}
    (h : l.contains a = true) : a ∈ l := by
  simpa using h

theorem find?_append_none {l1 l2 : List α} {f : α → Bool}
    (h : l1.find? f = none) : (l1 ++ l2).find? f = l2.find? f := by
  induction l1 with
  | nil => simp
  | cons a t ih =>
    have hall := List.find?_eq_none.mp h
    have ha : ¬ f a = true := hall a (List.mem_cons_self a t)
    have ht : t.find? f = none :=
      List.find?_eq_none.mpr (fun x hx => hall x (List.mem_cons_of_mem a hx))
    rw [List.cons_append, List.find?_cons_of_neg _ ha, ih ht]

theorem hasKey_lookup {data : List (String × α)} {k : String}
    (h : hasKey data k = true) : lookupKey data k ≠ none := by
  induction data with
  | nil => simp [hasKey] at h
  | cons kv t ih =>
    by_cases hk : (kv.1 == k) = true
    · simp [lookupKey, List.find?_cons, hk]
    · have hk' : (kv.1 == k) = false := by simpa using hk
      have ht : hasKey t k = true := by
        simpa [hasKey, List.any_cons, hk'] using h
      simpa [lookupKey, List.find?_cons, hk'] using ih ht

theorem mapKeysLoop_keys_only {km1 km2 : List (String × String)}
    (mf : List String) (data : List (String × α))
    (h : km1.map Prod.fst = km2.map Prod.fst) :
    mapKeysLoop mf data km1 = mapKeysLoop mf data km2 := by
  induction km1 generalizing km2 with
  | nil =>
    cases km2 with
    | nil => rfl
    | cons b t => simp at h
  | cons a t ih =>
    cases km2 with
    | nil => simp at h
    | cons b t2 =>
      obtain ⟨a1, a2⟩ := a
      obtain ⟨b1, b2⟩ := b
      simp only [List.map_cons, List.cons.injEq] at h
      obtain ⟨hab, htail⟩ := h
      subst hab
      simp only [mapKeysLoop, ih htail]

theorem mapKeysLoop_mf_congr {mf1 mf2 : List String}
    {data : List (String × α)} (km : List (String × String))
    (h : ∀ ck, lookupKey data ck = none →
      mf1.contains ck = mf2.contains ck) :
    mapKeysLoop mf1 data km = mapKeysLoop mf2 data km := by
  induction km with
  | nil => rfl
  | cons a t ih =>
    obtain ⟨ck, ek⟩ := a
    cases hl : lookupKey data ck with
    | some v => simp only [mapKeysLoop, hl, ih]
    | none => simp only [mapKeysLoop, hl, h ck hl, ih]

theorem mapKeysLoop_ok {mf : List String} {data : List (String × α)}
    (km : List (String × String))
    (h : ∀ k, mf.contains k = true → hasKey data k = true) :
    ∃ m, mapKeysLoop mf data km = .ok m := by
  induction km with
  | nil => exact ⟨[], rfl⟩
  | cons a t ih =>
    obtain ⟨ck, ek⟩ := a
    cases hl : lookupKey data ck with
    | some v =>
      obtain ⟨m, hm⟩ := ih
      exact ⟨(ck, v) :: m, by simp [mapKeysLoop, hl, hm, Except.map]⟩
    | none =>
      have hmf : mf.contains ck = false := by
        by_contra hc
        have hc' : mf.contains ck = true := by
          revert hc; cases mf.contains ck <;> simp
        exact hasKey_lookup (h ck hc') hl
      obtain ⟨m, hm⟩ := ih
      refine ⟨m, ?_⟩
      simp only [mapKeysLoop, hl, hmf]
      simpa using hm

theorem mapKeysLoop_ok_keys {km : List (String × String)}
    {mf : List String} {data m : List (String × α)} {k : String}
    (h : mapKeysLoop mf data km = .ok m) (hm : hasKey m k = true) :
    k ∈ km.map Prod.fst := by
  induction km generalizing m with
  | nil =>
    simp only [mapKeysLoop] at h
    cases h
    simp [hasKey] at hm
  | cons a t ih =>
    obtain ⟨ck, ek⟩ := a
    cases hl : lookupKey data ck with
    | some v =>
      simp only [mapKeysLoop, hl] at h
      cases ht : mapKeysLoop mf data t with
      | error e => simp [ht, Except.map] at h
      | ok m' =>
        simp only [ht, Except.map] at h
        cases h
        by_cases hck : (ck == k) = true
        · have : ck = k := eq_of_beq hck
          subst this
          exact List.mem_cons_self ck _
        · have hck' : (ck == k) = false := by simpa using hck
          have hkm' : hasKey m' k = true := by
            simpa [hasKey, List.any_cons, hck'] using hm
          exact List.mem_cons_of_mem ck (ih ht hkm')
    | none =>
      simp only [mapKeysLoop, hl] at h
      by_cases hmf : mf.contains ck = true
      · rw [if_pos hmf] at h
        cases h
      · have hmf' : mf.contains ck = false := by simpa using hmf
        rw [hmf'] at h
        simp only [Bool.false_eq_true, if_false] at h
        exact List.mem_cons_of_mem ck (ih h hm)

/-! ## Claim C3 — insurer resolution -/

def c3name : String := "generic"

/-- Claim C3: strategy resolution is total over all insurer-name strings
(`getInsurerService` is a total function, as every path of the source
returns); matching compares lowercased names against each declared strategy
name; the default strategy, having no declared name, never matches by
comparison; `PASARGAD`, `Pasargad` and `pasargad` all resolve to the Pasargad
strategy; the empty string and any name whose lowercasing is neither
`pasargad` nor `hekmat` resolve to the default fallback. -/
theorem c3_resolver_total :
    (getInsurerService "PASARGAD" = ServiceKind.pasargad ∧
     getInsurerService "Pasargad" = ServiceKind.pasargad ∧
     getInsurerService "pasargad" = ServiceKind.pasargad) ∧
    getInsurerService "" = ServiceKind.default ∧
    (∀ s : String, matchesService s ServiceKind.default = false) ∧
    (∀ s : String, strLower s ≠ "pasargad" → strLower s ≠ "hekmat" →
      getInsurerService s = ServiceKind.default) := by
  refine ⟨⟨by decide, by decide, by decide⟩, by decide, fun s => rfl, ?_⟩
  intro s h1 h2
  have e1 : matchesService s ServiceKind.pasargad = false := by
    have : (strLower s == strLower "pasargad") = false := by
      have : strLower "pasargad" = "pasargad" := by decide
      rw [this]
      simpa [beq_iff_eq] using h1
    simpa [matchesService, insurerName] using this
  have e2 : matchesService s ServiceKind.hekmat = false := by
    have : (strLower s == strLower "hekmat") = false := by
      have : strLower "hekmat" = "hekmat" := by decide
      rw [this]
      simpa [beq_iff_eq] using h2
    simpa [matchesService, insurerName] using this
  have e3 : matchesService s ServiceKind.default = false := rfl
  have hfind : serviceList.find? (matchesService s) = none := by
    simp [serviceList, List.find?, e1, e2, e3]
  unfold getInsurerService
  rw [hfind]

/-- Witness for C3 at the concrete unmatched name `generic`. -/
theorem c3_resolver_total_witness :
    strLower c3name ≠ "pasargad" ∧ strLower c3name ≠ "hekmat" ∧
    getInsurerService c3name = ServiceKind.default :=
  ⟨by decide, by decide,
   c3_resolver_total.2.2.2 c3name (by decide) (by decide)⟩

/-! ## Raw payload values

For the raw-dict claims, the values flowing through `_map_keys` are opaque to
the mapping step: strings and parsed dates. Dates are encoded as `Nat`
(`yyyymmdd`), which preserves exactly the ordering and equality the code
relies on. -/

inductive FieldVal where
  | str : String → FieldVal
  | date : Nat → FieldVal
deriving DecidableEq

instance {ε α : Type} [DecidableEq ε] [DecidableEq α] :
    DecidableEq (Except ε α)
  | .error a, .error b =>
    if h : a = b then isTrue (by rw [h])
    else isFalse (by intro hc; cases hc; exact h rfl)
  | .error _, .ok _ => isFalse (by intro h; cases h)
  | .ok _, .error _ => isFalse (by intro h; cases h)
  | .ok a, .ok b =>
    if h : a = b then isTrue (by rw [h])
    else isFalse (by intro hc; cases hc; exact h rfl)

/-! ## Claim C10 — extensional equality of the mapping strategies -/

def c10data : List (String × Nat) := [("email", 0)]

/-- Claim C10: `HekmatInsurerService._map_keys` produces exactly the same
canonical map, and the same missing-field errors, as
`DefaultInsurerService._map_keys` on every input — the declared external keys
(`name`, `family_name`) are never consulted, since both tables declare the
same canonical-key sequence and the mandatory sets coincide; and the Pasargad
strategy coincides with the default one on every input that carries `email`,
so the three strategies differ observably only in Pasargad's additional
mandatory `email` field. -/
theorem c10_strategy_equivalence :
    (∀ (α : Type) (data : List (String × α)),
      mapKeys hekmatKeyMapping hekmatMandatory data =
        mapKeys defaultKeyMapping defaultMandatory data) ∧
    (∀ (α : Type) (data : List (String × α)), hasKey data "email" = true →
      mapKeys pasargadKeyMapping pasargadMandatory data =
        mapKeys defaultKeyMapping defaultMandatory data) := by
  constructor
  · intro α data
    have hk : hekmatKeyMapping.map Prod.fst = defaultKeyMapping.map Prod.fst := by
      decide
    have hm : hekmatMandatory = defaultMandatory := rfl
    unfold mapKeys
    rw [hm]
    exact mapKeysLoop_keys_only defaultMandatory data hk
  · intro α data hemail
    have hk : pasargadKeyMapping = defaultKeyMapping := rfl
    unfold mapKeys
    rw [hk]
    refine mapKeysLoop_mf_congr defaultKeyMapping ?_
    intro ck hnone
    by_cases hck : ck = "email"
    · subst hck
      exact absurd hnone (hasKey_lookup hemail)
    · have hb : (ck == "email") = false := by simpa using hck
      simp only [pasargadMandatory, defaultMandatory, List.contains_cons, hb]
      simp

/-- Witness for C10 at the one-key dict `{email: 0}`. -/
theorem c10_strategy_equivalence_witness :
    hasKey c10data "email" = true ∧
    mapKeys pasargadKeyMapping pasargadMandatory c10data =
      mapKeys defaultKeyMapping defaultMandatory c10data :=
  ⟨by decide, c10_strategy_equivalence.2 Nat c10data (by decide)⟩

/-! ## Claim C9 — unknown input keys are dropped, not passed through -/

def c9data : List (String × FieldVal) :=
  [("insurer", .str "generic"), ("first_name", .str "Ali"),
   ("last_name", .str "Mohammadi"), ("phone_number", .str "09123456789"),
   ("national_id", .str "1234567890"), ("birth_date", .date 19900101),
   ("insurer_id", .str "GEN123"), ("policyholder_name", .str "Fanap"),
   ("policyholder_id", .str "FAN456"), ("start_date", .date 20250101),
   ("end_date", .date 20251231), ("policy_id", .str "POL790"),
   ("plan_name", .str "Silver"), ("plan_id", .str "PLN102"),
   ("insured_id", .str "INS203"), ("extra_key", .str "extra value")]

def c9dataNoExtra : List (String × FieldVal) :=
  [("insurer", .str "generic"), ("first_name", .str "Ali"),
   ("last_name", .str "Mohammadi"), ("phone_number", .str "09123456789"),
   ("national_id", .str "1234567890"), ("birth_date", .date 19900101),
   ("insurer_id", .str "GEN123"), ("policyholder_name", .str "Fanap"),
   ("policyholder_id", .str "FAN456"), ("start_date", .date 20250101),
   ("end_date", .date 20251231), ("policy_id", .str "POL790"),
   ("plan_name", .str "Silver"), ("plan_id", .str "PLN102"),
   ("insured_id", .str "INS203")]

/-- Canonical map actually produced by the default strategy on
`c9dataNoExtra`: the entries in `key_mapping` iteration order. -/
def c9mapped : List (String × FieldVal) :=
  [("insurer", .str "generic"), ("first_name", .str "Ali"),
   ("last_name", .str "Mohammadi"), ("phone_number", .str "09123456789"),
   ("national_id", .str "1234567890"), ("birth_date", .date 19900101),
   ("insurer_id", .str "GEN123"), ("policyholder_name", .str "Fanap"),
   ("policyholder_id", .str "FAN456"), ("start_date", .date 20250101),
   ("end_date", .date 20251231), ("policy_id", .str "POL790"),
   ("plan_name", .str "Silver"), ("plan_id", .str "PLN102"),
   ("insured_id", .str "INS203")]

/-- Counterexample to C9 as stated: on a full payload carrying the unknown
key `extra_key`, the default strategy's mapping step succeeds but its output
does not contain `extra_key` — the unknown key is dropped, not passed
through unchanged. -/
theorem c9_extra_key_counterexample :
    hasKey c9data "extra_key" = true ∧
    Except.map (fun m => hasKey m "extra_key")
      (mapKeys defaultKeyMapping defaultMandatory c9data) = .ok false := by
  decide

/-- Claim C9 as amended: every input key that is not declared among the
canonical keys of the selected strategy's mapping table is omitted from the
canonical field map (dropped), for every raw input mapping. -/
theorem c9_unknown_keys_dropped :
    ∀ (α : Type) (data m : List (String × α)) (k : String),
      k ∉ defaultKeyMapping.map Prod.fst →
      mapKeys defaultKeyMapping defaultMandatory data = .ok m →
      hasKey m k = false := by
  intro α data m k hk h
  by_contra hc
  have hc' : hasKey m k = true := by
    revert hc; cases hasKey m k <;> simp
  exact hk (mapKeysLoop_ok_keys h hc')

/-- Witness for C9's amended theorem at the concrete full payload. -/
theorem c9_unknown_keys_dropped_witness :
    ("extra_key" ∉ defaultKeyMapping.map Prod.fst) ∧
    mapKeys defaultKeyMapping defaultMandatory c9dataNoExtra = .ok c9mapped ∧
    hasKey c9mapped "extra_key" = false :=
  ⟨by decide, by decide,
   c9_unknown_keys_dropped FieldVal c9dataNoExtra c9mapped "extra_key"
     (by decide) (by decide)⟩

/-! ## Claim C1 — the documented hekmat end-to-end example -/

/-- The hekmat example input of the spec (and of the OpenAPI example in
`views.py`), which uses the external keys `name` and `family_name` instead of
`first_name` / `last_name`. -/
def c1input : List (String × FieldVal) :=
  [("insurer", .str "hekmat"), ("name", .str "Reza"),
   ("family_name", .str "Rezaei"), ("phone_number", .str "09123456788"),
   ("national_id", .str "1234567891"), ("birth_date", .date 19900101),
   ("insurer_id", .str "INS002"), ("policyholder_name", .str "Fanap"),
   ("policyholder_id", .str "FAN456"), ("start_date", .date 20250101),
   ("end_date", .date 20251231), ("policy_id", .str "POL790"),
   ("plan_name", .str "Silver"), ("plan_id", .str "PLN102"),
   ("insured_id", .str "INS203")]

/-- The fields declared `required=True` on `BaseInsuredDataSerializer`, in
declaration order. -/
def serializerRequiredFields : List String :=
  ["insurer", "first_name", "last_name", "phone_number", "national_id",
   "birth_date", "insurer_id", "policyholder_name", "policyholder_id",
   "start_date", "end_date", "policy_id", "plan_name", "plan_id",
   "insured_id"]

/-- Required-field check of the serializer: the required fields absent from
the raw input (each reported as `This field is required.`). -/
def missingRequired (data : List (String × FieldVal)) : List String :=
  serializerRequiredFields.filter (fun k => !(hasKey data k))

/-- Claim C1 evaluated on the code: the hekmat example input is rejected, not
accepted. The serializer requires the canonical keys `first_name` and
`last_name`, which the example does not carry; and the hekmat strategy's
`_map_keys`, which looks up only the canonical keys of its table (never the
declared external keys `name` / `family_name`), fails with
`Missing required field: first_name`. No entity is ever created and no
success envelope is returned, although the insurer name does resolve to the
hekmat strategy. -/
theorem c1_hekmat_example_rejected :
    getInsurerService "hekmat" = ServiceKind.hekmat ∧
    missingRequired c1input = ["first_name", "last_name"] ∧
    mapKeys hekmatKeyMapping hekmatMandatory c1input =
      .error "Missing required field: first_name" := by
  refine ⟨by decide, by decide, ?_⟩
  decide

/-! ## Data model (`insurances/models.py`)

Foreign keys are represented by the unique business keys of the referenced
tables (`national_id` for `Insured`, `unique_id` for `Insurer` /
`Policyholder` / `Policy`): each of those columns is declared `unique` (or
primary key), so rows are in bijection with these keys and the composite
uniqueness constraint of `Policy.Meta` is faithfully expressed over them.
Optional model columns (`blank=True, null=True`) are `Option`s. -/

structure InsuredRec where
  first_name : String
  last_name : String
  email : Option String
  phone_number : String
  national_id : String
  birth_date : Nat
  father_name : Option String
  place_of_issue : Option String
deriving DecidableEq

structure InsurerRec where
  name : String
  unique_id : String
deriving DecidableEq

structure PolicyholderRec where
  name : String
  unique_id : String
deriving DecidableEq

structure PolicyRec where
  unique_id : String
  insured_nid : String
  insurer_uid : String
  policyholder_uid : String
  start_date : Nat
  end_date : Nat
  confirmation_date : Option Nat
deriving DecidableEq

structure PlanRec where
  policy_uid : String
  name : String
  unique_id : String
deriving DecidableEq

structure InsuredStatusRec where
  policy_uid : String
  unique_id : String
deriving DecidableEq

/-- The relational store: one list per table, in insertion order. -/
structure DB where
  insureds : List InsuredRec
  insurers : List InsurerRec
  policyholders : List PolicyholderRec
  policies : List PolicyRec
  plans : List PlanRec
  statuses : List InsuredStatusRec
deriving DecidableEq

/-- A serializer `validated_data` dict, structured: the fifteen
`required=True` fields with their parsed types, and the four optional fields
as `Option`s (present in `validated_data` iff supplied). -/
structure Payload where
  insurer : String
  first_name : String
  last_name : String
  phone_number : String
  national_id : String
  birth_date : Nat
  insurer_id : String
  policyholder_name : String
  policyholder_id : String
  start_date : Nat
  end_date : Nat
  policy_id : String
  plan_name : String
  plan_id : String
  insured_id : String
  email : Option String
  father_name : Option String
  place_of_issue : Option String
  confirmation_date : Option Nat
deriving DecidableEq

/-- The `validated_data` dict of a payload, in serializer field-declaration
order: the fifteen required fields always present, each optional field
present exactly when supplied. This is the dict handed to the selected
service's `_map_keys`. -/
def Payload.toDict (p : Payload) : List (String × FieldVal) :=
  [("insurer", .str p.insurer), ("first_name", .str p.first_name),
   ("last_name", .str p.last_name), ("phone_number", .str p.phone_number),
   ("national_id", .str p.national_id), ("birth_date", .date p.birth_date),
   ("insurer_id", .str p.insurer_id),
   ("policyholder_name", .str p.policyholder_name),
   ("policyholder_id", .str p.policyholder_id),
   ("start_date", .date p.start_date), ("end_date", .date p.end_date),
   ("policy_id", .str p.policy_id), ("plan_name", .str p.plan_name),
   ("plan_id", .str p.plan_id), ("insured_id", .str p.insured_id)] ++
  (match p.email with
   | some v => [("email", FieldVal.str v)]
   | none => []) ++
  (match p.father_name with
   | some v => [("father_name", FieldVal.str v)]
   | none => []) ++
  (match p.place_of_issue with
   | some v => [("place_of_issue", FieldVal.str v)]
   | none => []) ++
  (match p.confirmation_date with
   | some v => [("confirmation_date", FieldVal.date v)]
   | none => [])

/-! ## Persistence orchestrator (`BaseInsurerService`)

Each `_save_*` method is embedded over the explicit store. `get_or_create`
looks the row up by its key and inserts only when absent; `create` raises
`IntegrityError` (a message containing `UNIQUE constraint failed`, as the
storage engine words it) when a declared unique constraint is violated.
The `save` wrapper models `@transaction.atomic`: the state built by a failing
step sequence is discarded — the transactional storage engine (an external
collaborator) rolls back, and the re-raised `ValidationError` propagates out
of the atomic block. -/

def saveInsured (p : Payload) (db : DB) : InsuredRec × DB :=
  match db.insureds.find? (fun i => i.national_id == p.national_id) with
  | some i => (i, db)
  | none =>
    let r : InsuredRec :=
      { first_name := p.first_name, last_name := p.last_name,
        email := p.email, phone_number := p.phone_number,
        national_id := p.national_id, birth_date := p.birth_date,
        father_name := p.father_name, place_of_issue := p.place_of_issue }
    (r, { db with insureds := db.insureds ++ [r] })

def saveInsurer (p : Payload) (db : DB) : InsurerRec × DB :=
  match db.insurers.find? (fun i => i.unique_id == p.insurer_id) with
  | some i => (i, db)
  | none =>
    let r : InsurerRec := { name := p.insurer, unique_id := p.insurer_id }
    (r, { db with insurers := db.insurers ++ [r] })

def savePolicyholder (p : Payload) (db : DB) : PolicyholderRec × DB :=
  match db.policyholders.find? (fun i => i.unique_id == p.policyholder_id) with
  | some i => (i, db)
  | none =>
    let r : PolicyholderRec :=
      { name := p.policyholder_name, unique_id := p.policyholder_id }
    (r, { db with policyholders := db.policyholders ++ [r] })

def policyPkViolation : String :=
  "UNIQUE constraint failed: insurances_policy.unique_id"

def policyCompositeViolation : String :=
  "UNIQUE constraint failed: insurances_policy.insured_id, insurances_policy.insurer_id, insurances_policy.policyholder_id, insurances_policy.start_date"

def planUniqueViolation : String :=
  "UNIQUE constraint failed: insurances_plan.unique_id"

def statusUniqueViolation : String :=
  "UNIQUE constraint failed: insurances_insuredstatus.unique_id"

/-- Model of `Policy.objects.create`: fails when the primary key exists or when the
`unique_together` tuple (insured, insurer, policyholder, start_date) exists. -/
def savePolicy (p : Payload) (ins : InsuredRec) (insr : InsurerRec)
    (ph : PolicyholderRec) (db : DB) : Except String (PolicyRec × DB) :=
  if db.policies.any (fun q => q.unique_id == p.policy_id) then
    .error policyPkViolation
  else if db.policies.any (fun q =>
      q.insured_nid == ins.national_id && q.insurer_uid == insr.unique_id &&
      q.policyholder_uid == ph.unique_id && q.start_date == p.start_date) then
    .error policyCompositeViolation
  else
    let r : PolicyRec :=
      { unique_id := p.policy_id, insured_nid := ins.national_id,
        insurer_uid := insr.unique_id, policyholder_uid := ph.unique_id,
        start_date := p.start_date, end_date := p.end_date,
        confirmation_date := p.confirmation_date }
    .ok (r, { db with policies := db.policies ++ [r] })

def savePlan (p : Payload) (pol : PolicyRec) (db : DB) :
    Except String (PlanRec × DB) :=
  if db.plans.any (fun q => q.unique_id == p.plan_id) then
    .error planUniqueViolation
  else
    let r : PlanRec :=
      { policy_uid := pol.unique_id, name := p.plan_name,
        unique_id := p.plan_id }
    .ok (r, { db with plans := db.plans ++ [r] })

def saveInsuredStatus (p : Payload) (pol : PolicyRec) (db : DB) :
    Except String (InsuredStatusRec × DB) :=
  if db.statuses.any (fun q => q.unique_id == p.insured_id) then
    .error statusUniqueViolation
  else
    let r : InsuredStatusRec :=
      { policy_uid := pol.unique_id, unique_id := p.insured_id }
    .ok (r, { db with statuses := db.statuses ++ [r] })

/-- The six persisted entities returned by `save` as a structured bundle. -/
structure Bundle where
  insured : InsuredRec
  insurer : InsurerRec
  policyholder : PolicyholderRec
  policy : PolicyRec
  plan : PlanRec
  insured_status : InsuredStatusRec
deriving DecidableEq

/-- The body of the `try` block of `BaseInsurerService.save`: the six steps
in their strict order, threading the store; the first storage failure aborts
the sequence. -/
def saveSteps (p : Payload) (db : DB) : Except String (Bundle × DB) :=
  match saveInsured p db with
  | (ins, db1) =>
    match saveInsurer p db1 with
    | (insr, db2) =>
      match savePolicyholder p db2 with
      | (ph, db3) =>
        match savePolicy p ins insr ph db3 with
        | .error e => .error e
        | .ok (pol, db4) =>
          match savePlan p pol db4 with
          | .error e => .error e
          | .ok (pl, db5) =>
            match saveInsuredStatus p pol db5 with
            | .error e => .error e
            | .ok (st, db6) =>
              .ok ({ insured := ins, insurer := insr, policyholder := ph,
                     policy := pol, plan := pl, insured_status := st }, db6)

def conflictMsg : String :=
  "A policy for this person, insurer, policyholder, and start date already exists."

/-- The `except IntegrityError` handler of `save`: a message containing
`unique constraint` (checked on the lowercased text) is re-raised as the
conflicting-policy `ValidationError`; any other storage message is re-raised
as `Database error: <message>`. (The further `except Exception` arm,
`Failed to save data: <message>`, is unreachable in this model: the embedded
steps only raise `IntegrityError`s.) -/
def translateError (e : String) : String :=
  if pyInStr "unique constraint" (strLower e) then conflictMsg
  else "Database error: " ++ e

/-- Model of `BaseInsurerService.save` under `@transaction.atomic`: on success the
threaded store is committed; on failure the transaction rolls back — the
caller keeps the pre-transaction store — and the translated
`ValidationError` propagates. -/
def save (p : Payload) (db : DB) : Except String Bundle × DB :=
  match saveSteps p db with
  | .ok (b, db') => (.ok b, db')
  | .error e => (.error (translateError e), db)

/-! ## Serializer validation (`BaseInsuredDataSerializer`) and the pipeline -/

/-- Both `validate_phone_number` and `validate_national_id` use
`re.match(r'^...$', value)`: the match is anchored at the start, and `$`
matches at the end of the string or just before one final newline. -/
def pyDollarMatch (core : List Char → Bool) (l : List Char) : Bool :=
  core l ||
  (match l.reverse with
   | c :: rest => c == '\n' && core rest.reverse
   | [] => false)

/-- Body of the pattern `09\d{9}`: the literal `09` followed by exactly nine
digits. -/
def phoneCore : List Char → Bool
  | c1 :: c2 :: rest =>
    c1 == '0' && c2 == '9' && (rest.length == 9 && rest.all Char.isDigit)
  | _ => false

/-- Body of the pattern `\d{10}`: exactly ten digits. -/
def nidCore (l : List Char) : Bool :=
  l.length == 10 && l.all Char.isDigit

/-- Acceptance predicate of `validate_phone_number`,
`re.match(r'^09\d{9}$', value)`. -/
def phoneOk (s : String) : Bool :=
  pyDollarMatch phoneCore s.data

/-- Acceptance predicate of `validate_national_id`,
`re.match(r'^\d{10}$', value)`. -/
def nidOk (s : String) : Bool :=
  pyDollarMatch nidCore s.data

def phoneMsg : String := "Enter a valid Iranian mobile number."

def nidMsg : String := "National ID must be exactly 10 digits."

def policyDupMsg : String := "A policy with this ID already exists."

def planDupMsg : String := "A plan with this ID already exists."

def statusDupMsg : String := "An insured status with this ID already exists."

def startEndMsg : String := "Policy start date must be before end date."

def confMsg : String := "Confirmation date cannot be before start date."

/-- The field-level validators, run for every declared field with the errors
collected (the framework gathers per-field errors rather than stopping at the
first), in field-declaration order: the two format checks and the three
pre-transaction existence checks against the store. -/
def runFieldValidation (db : DB) (p : Payload) : List String :=
  (if phoneOk p.phone_number then [] else [phoneMsg]) ++
  (if nidOk p.national_id then [] else [nidMsg]) ++
  (if db.policies.any (fun q => q.unique_id == p.policy_id) then
    [policyDupMsg] else []) ++
  (if db.plans.any (fun q => q.unique_id == p.plan_id) then
    [planDupMsg] else []) ++
  (if db.statuses.any (fun q => q.unique_id == p.insured_id) then
    [statusDupMsg] else [])

/-- The object-level `validate` method, run only when no field-level error
was collected: rejects `start_date >= end_date`; then, when
`confirmation_date` is present (a present date is always truthy), rejects
`confirmation_date < start_date`. -/
def crossValidate (p : Payload) : Except String Unit :=
  if p.end_date ≤ p.start_date then .error startEndMsg
  else
    match p.confirmation_date with
    | some c => if c < p.start_date then .error confMsg else .ok ()
    | none => .ok ()

/-- Last stage of the request pipeline: `serializer.save` calling the
service's `save`. `save` reads the canonical fields of `mapped_data`, whose
values coincide with the fields of the structured payload (the mapping is
the identity on canonical keys: see the mapping theorems). -/
def pipelineAfterMap (db : DB) (p : Payload) :
    Except (List String) Bundle × DB :=
  match save p db with
  | (.ok b, db') => (.ok b, db')
  | (.error e, db') => (.error [e], db')

/-- Stage of the pipeline after object-level validation: `create` resolves
the service from the insurer name and runs its `_map_keys` over
`validated_data` (raising `Missing required field` errors, e.g. for a
Pasargad payload without `email`), then persists. -/
def pipelineAfterCross (db : DB) (p : Payload) :
    Except (List String) Bundle × DB :=
  match mapKeys (svcKeyMapping (getInsurerService p.insurer))
      (svcMandatory (getInsurerService p.insurer)) p.toDict with
  | .error e => (.error [e], db)
  | .ok _ => pipelineAfterMap db p

/-- Stage of the pipeline after field-level validation: the object-level
`validate` method, then the rest. -/
def pipelineAfterFields (db : DB) (p : Payload) :
    Except (List String) Bundle × DB :=
  match crossValidate p with
  | .error e => (.error [e], db)
  | .ok _ => pipelineAfterCross db p

/-- The full request pipeline of `views.py` + `serializers.py`: field-level
validation collecting per-field errors (rejecting with them when any), then
object-level `validate`, then `create` (service resolution, `_map_keys`,
`save`). Every rejection path returns the untouched store: validation only
reads, and a failed transaction rolls back. -/
def pipeline (db : DB) (p : Payload) : Except (List String) Bundle × DB :=
  match (runFieldValidation db p).isEmpty with
  | true => pipelineAfterFields db p
  | false => (.error (runFieldValidation db p), db)

/-- Discriminator for result envelopes. -/
def isOkE : Except ε α → Bool
  | .ok _ => true
  | .error _ => false

/-! ## Pipeline helper lemmas -/

theorem save_err_snd {p : Payload} {db db' : DB} {e : String}
    (h : save p db = (.error e, db')) : db' = db := by
  unfold save at h
  cases hs : saveSteps p db with
  | ok v =>
    obtain ⟨b, d⟩ := v
    rw [hs] at h
    simp at h
  | error e2 =>
    rw [hs] at h
    simp only [Prod.mk.injEq] at h
    exact h.2.symm

theorem pipelineAfterMap_err_snd {db : DB} {p : Payload}
    (h : isOkE (pipelineAfterMap db p).1 = false) :
    (pipelineAfterMap db p).2 = db := by
  unfold pipelineAfterMap at h ⊢
  cases hs : save p db with
  | mk r db' =>
    cases r with
    | ok b => rw [hs] at h; simp [isOkE] at h
    | error e => exact save_err_snd hs

theorem pipelineAfterCross_err_snd {db : DB} {p : Payload}
    (h : isOkE (pipelineAfterCross db p).1 = false) :
    (pipelineAfterCross db p).2 = db := by
  unfold pipelineAfterCross at h ⊢
  cases hm : mapKeys (svcKeyMapping (getInsurerService p.insurer))
      (svcMandatory (getInsurerService p.insurer)) p.toDict with
  | error e => rfl
  | ok m =>
    rw [hm] at h
    exact pipelineAfterMap_err_snd h

theorem pipelineAfterFields_err_snd {db : DB} {p : Payload}
    (h : isOkE (pipelineAfterFields db p).1 = false) :
    (pipelineAfterFields db p).2 = db := by
  unfold pipelineAfterFields at h ⊢
  cases hc : crossValidate p with
  | error e => rfl
  | ok u =>
    cases u
    rw [hc] at h
    exact pipelineAfterCross_err_snd h

theorem pipeline_err_snd {db : DB} {p : Payload}
    (h : isOkE (pipeline db p).1 = false) :
    (pipeline db p).2 = db := by
  unfold pipeline at h ⊢
  cases he : (runFieldValidation db p).isEmpty with
  | false => rfl
  | true =>
    rw [he] at h
    exact pipelineAfterFields_err_snd h

theorem pipeline_fieldfail {db : DB} {p : Payload}
    (h : (runFieldValidation db p).isEmpty = false) :
    pipeline db p = (.error (runFieldValidation db p), db) := by
  unfold pipeline
  rw [h]

theorem pipeline_fieldok_cross {db : DB} {p : Payload} {e : String}
    (he : (runFieldValidation db p).isEmpty = true)
    (hc : crossValidate p = .error e) :
    pipeline db p = (.error [e], db) := by
  unfold pipeline
  rw [he]
  unfold pipelineAfterFields
  rw [hc]

theorem fieldValidation_nonempty {db : DB} {p : Payload} {m : String}
    (h : m ∈ runFieldValidation db p) :
    (runFieldValidation db p).isEmpty = false := by
  cases hE : (runFieldValidation db p).isEmpty
  · rfl
  · have : runFieldValidation db p = [] := by simpa using hE
    rw [this] at h
    cases h

/-! ## Claim C2 — all-or-nothing persistence -/

def c2db : DB :=
  { insureds := [], insurers := [], policyholders := [],
    policies :=
      [{ unique_id := "POL1", insured_nid := "9999999999",
         insurer_uid := "OLD1", policyholder_uid := "OLDPH",
         start_date := 20240101, end_date := 20241231,
         confirmation_date := none }],
    plans := [], statuses := [] }

def c2p : Payload :=
  { insurer := "generic", first_name := "Ali", last_name := "Mohammadi",
    phone_number := "09123456789", national_id := "1234567890",
    birth_date := 19900101, insurer_id := "GEN123",
    policyholder_name := "Fanap", policyholder_id := "FAN456",
    start_date := 20250101, end_date := 20251231, policy_id := "POL1",
    plan_name := "Silver", plan_id := "PLN102", insured_id := "INS203",
    email := none, father_name := none, place_of_issue := none,
    confirmation_date := none }

/-- Claim C2: for every payload and every storage state, whenever the
persistence phase fails — whatever step and whatever reason — the resulting
store is exactly the pre-operation store: the transaction discards every
write of the failing sequence, including the get-or-create insertions of
steps 1–3; and the full request pipeline likewise returns the untouched
store on every rejection path. -/
theorem c2_atomic_rollback (p : Payload) (db : DB) :
    (isOkE (save p db).1 = false → (save p db).2 = db) ∧
    (isOkE (pipeline db p).1 = false → (pipeline db p).2 = db) := by 
  refine ⟨?_, fun h => pipeline_err_snd h⟩
  intro h
  unfold save at h ⊢
  cases hs : saveSteps p db with
  | ok v =>
    obtain ⟨b, db2⟩ := v
    rw [hs] at h
    simp [isOkE] at h
  | error e => rfl

/-- Witness for C2: a payload whose `policy_id` collides with an existing
policy, run against a store with a fresh `national_id` — step 1 would insert
an insured row, step 4 fails, and the store the caller keeps is untouched. -/
theorem c2_atomic_rollback_witness :
    isOkE (save c2p c2db).1 = false ∧ (save c2p c2db).2 = c2db ∧
    (saveInsured c2p c2db).2.insureds ≠ c2db.insureds ∧
    isOkE (pipeline c2db c2p).1 = false ∧ (pipeline c2db c2p).2 = c2db :=
  ⟨by decide, (c2_atomic_rollback c2p c2db).1 (by decide), by decide,
   by decide, (c2_atomic_rollback c2p c2db).2 (by decide)⟩

/-! ## Claim C5 — date-range validation -/

def c5p1 : Payload :=
  { insurer := "generic", first_name := "Ali", last_name := "Mohammadi",
    phone_number := "09123456789", national_id := "1234567890",
    birth_date := 19900101, insurer_id := "GEN123",
    policyholder_name := "Fanap", policyholder_id := "FAN456",
    start_date := 20251231, end_date := 20250101, policy_id := "POL790",
    plan_name := "Silver", plan_id := "PLN102", insured_id := "INS203",
    email := none, father_name := none, place_of_issue := none,
    confirmation_date := none }

def c5p2 : Payload :=
  { insurer := "generic", first_name := "Ali", last_name := "Mohammadi",
    phone_number := "09123456789", national_id := "1234567890",
    birth_date := 19900101, insurer_id := "GEN123",
    policyholder_name := "Fanap", policyholder_id := "FAN456",
    start_date := 20250101, end_date := 20251231, policy_id := "POL790",
    plan_name := "Silver", plan_id := "PLN102", insured_id := "INS203",
    email := none, father_name := none, place_of_issue := none,
    confirmation_date := some 20241231 }

def c5p3 : Payload :=
  { insurer := "generic", first_name := "Ali", last_name := "Mohammadi",
    phone_number := "09123456789", national_id := "1234567890",
    birth_date := 19900101, insurer_id := "GEN123",
    policyholder_name := "Fanap", policyholder_id := "FAN456",
    start_date := 20250101, end_date := 20251231, policy_id := "POL790",
    plan_name := "Silver", plan_id := "PLN102", insured_id := "INS203",
    email := none, father_name := none, place_of_issue := none,
    confirmation_date := some 20250101 }

def c5db : DB :=
  { insureds := [], insurers := [], policyholders := [], policies := [],
    plans := [], statuses := [] }

/-- Claim C5: every payload with `start_date >= end_date` is rejected with
zero writes, and when the field-level checks pass the rejection carries
exactly the `InvalidRange` message of the object-level `validate`; every
payload with a present `confirmation_date < start_date` is likewise rejected
with zero writes; and a `confirmation_date` equal to `start_date` is
accepted by the date validation. -/
theorem c5_date_range_rejection (db : DB) (p : Payload) :
    (p.end_date ≤ p.start_date →
      isOkE (pipeline db p).1 = false ∧ (pipeline db p).2 = db) ∧
    (∀ c, p.confirmation_date = some c → c < p.start_date →
      isOkE (pipeline db p).1 = false ∧ (pipeline db p).2 = db) ∧
    (p.end_date ≤ p.start_date → runFieldValidation db p = [] →
      pipeline db p = (.error [startEndMsg], db)) ∧
    (p.start_date < p.end_date → p.confirmation_date = some p.start_date →
      crossValidate p = .ok ()) := by
  have hrej : (∃ e, crossValidate p = .error e) →
      isOkE (pipeline db p).1 = false ∧ (pipeline db p).2 = db := by
    rintro ⟨e, he⟩
    cases hE : (runFieldValidation db p).isEmpty with
    | false =>
      rw [pipeline_fieldfail hE]
      exact ⟨rfl, rfl⟩
    | true =>
      rw [pipeline_fieldok_cross hE he]
      exact ⟨rfl, rfl⟩
  refine ⟨?_, ?_, ?_, ?_⟩
  · intro h
    refine hrej ⟨startEndMsg, ?_⟩
    unfold crossValidate
    rw [if_pos h]
  · intro c hc hlt
    refine hrej ?_
    unfold crossValidate
    by_cases hse : p.end_date ≤ p.start_date
    · exact ⟨startEndMsg, by rw [if_pos hse]⟩
    · rw [if_neg hse, hc]
      exact ⟨confMsg, by simp [hlt]⟩
  · intro h hfv
    have hE : (runFieldValidation db p).isEmpty = true := by
      rw [hfv]
      rfl
    refine pipeline_fieldok_cross hE ?_
    unfold crossValidate
    rw [if_pos h]
  · intro h1 h2
    unfold crossValidate
    rw [if_neg (not_le.mpr h1), h2]
    simp

/-- Witness for C5 at three concrete payloads: start after end; confirmation
before start; confirmation equal to start. -/
theorem c5_date_range_rejection_witness :
    (c5p1.end_date ≤ c5p1.start_date ∧
      pipeline c5db c5p1 = (.error [startEndMsg], c5db)) ∧
    (c5p2.confirmation_date = some 20241231 ∧
      isOkE (pipeline c5db c5p2).1 = false ∧
      (pipeline c5db c5p2).2 = c5db) ∧
    (c5p3.confirmation_date = some c5p3.start_date ∧
      crossValidate c5p3 = .ok ()) :=
  ⟨⟨by decide,
    (c5_date_range_rejection c5db c5p1).2.2.1 (by decide) (by decide)⟩,
   ⟨by decide,
    (c5_date_range_rejection c5db c5p2).2.1 20241231 (by decide) (by decide)⟩,
   ⟨by decide,
    (c5_date_range_rejection c5db c5p3).2.2.2 (by decide) (by decide)⟩⟩

/-! ## Claim C7 — pre-transaction duplicate-identifier rejection -/

def c7db : DB :=
  { insureds := [], insurers := [], policyholders := [],
    policies :=
      [{ unique_id := "POL790", insured_nid := "9999999999",
         insurer_uid := "OLD1", policyholder_uid := "OLDPH",
         start_date := 20240101, end_date := 20241231,
         confirmation_date := none }],
    plans := [], statuses := [] }

def c7p : Payload :=
  { insurer := "generic", first_name := "Ali", last_name := "Mohammadi",
    phone_number := "not a phone", national_id := "1234567890",
    birth_date := 19900101, insurer_id := "GEN123",
    policyholder_name := "Fanap", policyholder_id := "FAN456",
    start_date := 20250101, end_date := 20251231, policy_id := "POL790",
    plan_name := "Silver", plan_id := "PLN102", insured_id := "INS203",
    email := none, father_name := none, place_of_issue := none,
    confirmation_date := none }

/-- Claim C7: for every payload and storage state, a `policy_id`, `plan_id`
or `insured_id` that already exists in storage makes the request fail during
the pre-transaction field validation — the collected errors contain the
corresponding duplicate message, whatever the validity of the other fields —
and the store is returned unchanged. -/
theorem c7_duplicate_precheck (db : DB) (p : Payload) :
    (db.policies.any (fun q => q.unique_id == p.policy_id) = true →
      (pipeline db p).2 = db ∧
      ∃ errs, (pipeline db p).1 = .error errs ∧ policyDupMsg ∈ errs) ∧
    (db.plans.any (fun q => q.unique_id == p.plan_id) = true →
      (pipeline db p).2 = db ∧
      ∃ errs, (pipeline db p).1 = .error errs ∧ planDupMsg ∈ errs) ∧
    (db.statuses.any (fun q => q.unique_id == p.insured_id) = true →
      (pipeline db p).2 = db ∧
      ∃ errs, (pipeline db p).1 = .error errs ∧ statusDupMsg ∈ errs) := by
  refine ⟨?_, ?_, ?_⟩
  all_goals intro h
  · have hmem : policyDupMsg ∈ runFieldValidation db p := by
      unfold runFieldValidation
      rw [h]
      simp
    rw [pipeline_fieldfail (fieldValidation_nonempty hmem)]
    exact ⟨rfl, runFieldValidation db p, rfl, hmem⟩
  · have hmem : planDupMsg ∈ runFieldValidation db p := by
      unfold runFieldValidation
      rw [h]
      simp
    rw [pipeline_fieldfail (fieldValidation_nonempty hmem)]
    exact ⟨rfl, runFieldValidation db p, rfl, hmem⟩
  · have hmem : statusDupMsg ∈ runFieldValidation db p := by
      unfold runFieldValidation
      rw [h]
      simp
    rw [pipeline_fieldfail (fieldValidation_nonempty hmem)]
    exact ⟨rfl, runFieldValidation db p, rfl, hmem⟩

/-- Witness for C7: a payload whose `policy_id` already exists — and whose
phone number is additionally malformed — is rejected with the duplicate
message among the collected errors, and the store is unchanged. -/
theorem c7_duplicate_precheck_witness :
    c7db.policies.any (fun q => q.unique_id == c7p.policy_id) = true ∧
    (pipeline c7db c7p).2 = c7db ∧
    ∃ errs, (pipeline c7db c7p).1 = .error errs ∧ policyDupMsg ∈ errs :=
  ⟨by decide,
   ((c7_duplicate_precheck c7db c7p).1 (by decide)).1,
   ((c7_duplicate_precheck c7db c7p).1 (by decide)).2⟩

/-! ## Claim C4 — translation of storage failures -/

def c4db : DB :=
  { insureds := [], insurers := [], policyholders := [], policies := [],
    plans :=
      [{ policy_uid := "POLX", name := "Old plan", unique_id := "PLN102" }],
    statuses := [] }

def c4p : Payload :=
  { insurer := "generic", first_name := "Ali", last_name := "Mohammadi",
    phone_number := "09123456789", national_id := "1234567890",
    birth_date := 19900101, insurer_id := "GEN123",
    policyholder_name := "Fanap", policyholder_id := "FAN456",
    start_date := 20250101, end_date := 20251231, policy_id := "POL790",
    plan_name := "Silver", plan_id := "PLN102", insured_id := "INS203",
    email := none, father_name := none, place_of_issue := none,
    confirmation_date := none }

/-- Counterexample to C4 as stated: a store whose only conflict is an
existing `Plan` with the payload's `plan_id` (it has no policies at all, so
the composite (insured, insurer, policyholder, start_date) tuple certainly
does not exist). `save` nevertheless raises the conflicting-policy message:
the handler keys on the words `unique constraint` alone and cannot tell
which unique key was violated, so the `ConflictingPolicy` wording is not
reserved for composite-tuple conflicts. -/
theorem c4_plan_violation_counterexample :
    save c4p c4db = (.error conflictMsg, c4db) ∧
    c4db.policies.any (fun q =>
      q.insured_nid == c4p.national_id && q.insurer_uid == c4p.insurer_id &&
      q.policyholder_uid == c4p.policyholder_id &&
      q.start_date == c4p.start_date) = false := by
  constructor
  · rfl
  · decide

theorem savePolicy_error {p : Payload} {ins : InsuredRec} {insr : InsurerRec}
    {ph : PolicyholderRec} {db : DB} {e : String}
    (h : savePolicy p ins insr ph db = .error e) :
    e = policyPkViolation ∨ e = policyCompositeViolation := by
  unfold savePolicy at h
  split at h
  · exact Or.inl (Except.error.inj h).symm
  · split at h
    · exact Or.inr (Except.error.inj h).symm
    · cases h

theorem savePlan_error {p : Payload} {pol : PolicyRec} {db : DB} {e : String}
    (h : savePlan p pol db = .error e) : e = planUniqueViolation := by
  unfold savePlan at h
  split at h
  · exact (Except.error.inj h).symm
  · cases h

theorem saveInsuredStatus_error {p : Payload} {pol : PolicyRec} {db : DB}
    {e : String} (h : saveInsuredStatus p pol db = .error e) :
    e = statusUniqueViolation := by
  unfold saveInsuredStatus at h
  split at h
  · exact (Except.error.inj h).symm
  · cases h

theorem saveSteps_error_msgs {p : Payload} {db : DB} {e : String}
    (h : saveSteps p db = .error e) :
    e = policyPkViolation ∨ e = policyCompositeViolation ∨
    e = planUniqueViolation ∨ e = statusUniqueViolation := by
  unfold saveSteps at h
  rcases h1 : saveInsured p db with ⟨ins, db1⟩
  rw [h1] at h
  dsimp only at h
  rcases h2 : saveInsurer p db1 with ⟨insr, db2⟩
  rw [h2] at h
  dsimp only at h
  rcases h3 : savePolicyholder p db2 with ⟨ph, db3⟩
  rw [h3] at h
  dsimp only at h
  cases h4 : savePolicy p ins insr ph db3 with
  | error e4 =>
    rw [h4] at h
    rcases savePolicy_error h4 with he | he <;>
      [exact Or.inl ((Except.error.inj h).symm.trans he);
       exact Or.inr (Or.inl ((Except.error.inj h).symm.trans he))]
  | ok v4 =>
    obtain ⟨pol, db4⟩ := v4
    rw [h4] at h
    dsimp only at h
    cases h5 : savePlan p pol db4 with
    | error e5 =>
      rw [h5] at h
      exact Or.inr (Or.inr (Or.inl
        ((Except.error.inj h).symm.trans (savePlan_error h5))))
    | ok v5 =>
      obtain ⟨pl, db5⟩ := v5
      rw [h5] at h
      dsimp only at h
      cases h6 : saveInsuredStatus p pol db5 with
      | error e6 =>
        rw [h6] at h
        exact Or.inr (Or.inr (Or.inr
          ((Except.error.inj h).symm.trans (saveInsuredStatus_error h6))))
      | ok v6 =>
        obtain ⟨st, db6⟩ := v6
        rw [h6] at h
        dsimp only at h
        cases h

/-- Claim C4 as amended: every storage failure the six steps can raise is a
uniqueness violation whose message carries `unique constraint`, and the
handler re-raises each of them — composite-tuple conflicts, duplicate policy
primary keys, duplicate plan ids and duplicate insured-status ids alike — as
the one domain `ValidationError` with the conflicting-policy wording, without
distinguishing which unique key was violated; a storage message that does
not contain `unique constraint` is re-raised as the generic
`Database error: <message>`. -/
theorem c4_uniform_uniqueness_translation :
    (∀ (p : Payload) (db : DB) (e : String), saveSteps p db = .error e →
      translateError e = conflictMsg) ∧
    (∀ e : String, pyInStr "unique constraint" (strLower e) = false →
      translateError e = "Database error: " ++ e) := by
  constructor
  · intro p db e h
    rcases saveSteps_error_msgs h with rfl | rfl | rfl | rfl <;> decide
  · intro e h
    unfold translateError
    rw [h]
    simp

/-- Witness for C4's amended theorem: the plan-id collision of the
counterexample store, and a non-uniqueness storage message. -/
theorem c4_uniform_uniqueness_translation_witness :
    saveSteps c4p c4db = .error planUniqueViolation ∧
    translateError planUniqueViolation = conflictMsg ∧
    pyInStr "unique constraint" (strLower "connection lost") = false ∧
    translateError "connection lost" = "Database error: " ++ "connection lost" :=
  ⟨by rfl,
   c4_uniform_uniqueness_translation.1 c4p c4db planUniqueViolation (by rfl),
   by decide,
   c4_uniform_uniqueness_translation.2 "connection lost" (by decide)⟩

/-! ## Claim C6 — phone / national-id format validation -/

/-- Spec-side characterization (from the spec's words, for comparison with
the code's regex): a string fully matching `09` followed by exactly nine
digits, with nothing before or after. -/
def specPhone09 (l : List Char) : Prop :=
  ∃ ds : List Char, l = '0' :: '9' :: ds ∧ ds.length = 9 ∧
    ∀ c ∈ ds, c.isDigit = true

/-- Spec-side characterization (from the spec's words): a string consisting
of exactly ten digits, nothing more. -/
def specNid10 (l : List Char) : Prop :=
  l.length = 10 ∧ ∀ c ∈ l, c.isDigit = true

theorem phoneCore_iff (l : List Char) :
    phoneCore l = true ↔ specPhone09 l := by
  constructor
  · intro h
    cases l with
    | nil => simp [phoneCore] at h
    | cons c1 t =>
      cases t with
      | nil => simp [phoneCore] at h
      | cons c2 rest =>
        simp only [phoneCore, Bool.and_eq_true, beq_iff_eq] at h
        obtain ⟨⟨h1, h2⟩, h3, h4⟩ := h
        subst h1
        subst h2
        refine ⟨rest, rfl, by simpa using h3, ?_⟩
        intro c hc
        exact List.all_eq_true.mp h4 c hc
  · rintro ⟨ds, rfl, hlen, hall⟩
    simp [phoneCore, hlen, List.all_eq_true]
    intro c hc
    exact hall c hc

theorem nidCore_iff (l : List Char) : nidCore l = true ↔ specNid10 l := by
  unfold nidCore specNid10
  simp only [Bool.and_eq_true, beq_iff_eq, List.all_eq_true]

theorem pyDollar_iff (core : List Char → Bool) (l : List Char) :
    pyDollarMatch core l = true ↔
      (core l = true ∨ ∃ t, l = t ++ ['\n'] ∧ core t = true) := by
  unfold pyDollarMatch
  rw [Bool.or_eq_true]
  constructor
  · rintro (h | h)
    · exact Or.inl h
    · right
      cases hr : l.reverse with
      | nil => rw [hr] at h; cases h
      | cons c rest =>
        rw [hr] at h
        dsimp only at h
        rw [Bool.and_eq_true] at h
        obtain ⟨hc, hcore⟩ := h
        have hc' : c = '\n' := eq_of_beq hc
        refine ⟨rest.reverse, ?_, hcore⟩
        have hl : l = (c :: rest).reverse := by rw [← hr, List.reverse_reverse]
        rw [hl, List.reverse_cons, hc']
  · rintro (h | ⟨t, rfl, hc⟩)
    · exact Or.inl h
    · right
      have hr : (t ++ ['\n']).reverse = '\n' :: t.reverse := by simp
      rw [hr]
      dsimp only
      rw [Bool.and_eq_true]
      refine ⟨by simp, ?_⟩
      rw [List.reverse_reverse]
      exact hc

/-- Whitespace set of Python `str.strip` restricted to ASCII: space, tab,
newline, carriage return, vertical tab, form feed. (`str.strip` also strips
other Unicode whitespace, outside this file's stated ASCII scope.) -/
def pyWs (c : Char) : Bool :=
  c == ' ' || c == '\t' || c == '\n' || c == '\r' ||
  c.toNat == 11 || c.toNat == 12

def dropLeadingWs : List Char → List Char
  | [] => []
  | c :: t => if pyWs c then dropLeadingWs t else c :: t

/-- Model of Python `str.strip()` — the `trim_whitespace=True` default of
the `CharField`s of `BaseInsuredDataSerializer` — dropping leading and
trailing whitespace. -/
def pyStrip (s : String) : String :=
  String.mk ((dropLeadingWs ((dropLeadingWs s.data).reverse)).reverse)

def blankMsg : String := "This field may not be blank."

def maxLen11Msg : String :=
  "Ensure this field has no more than 11 characters."

def maxLen10Msg : String :=
  "Ensure this field has no more than 10 characters."

/-- Full field-processing chain of the serializer for `phone_number`
(`CharField(max_length=11)` with the defaults `trim_whitespace=True` and
`allow_blank=False`, then `validate_phone_number`), in the order the
framework runs it: the blank check against the stripped value, the trimming
`to_internal_value`, the `MaxLengthValidator` on the trimmed value, and
finally the regex of `validate_phone_number` on the trimmed value. On
success the trimmed value is what enters `validated_data` and is stored. -/
def runPhoneField (v : String) : Except String String :=
  if (pyStrip v).data.length = 0 then .error blankMsg
  else if 11 < (pyStrip v).data.length then .error maxLen11Msg
  else if phoneOk (pyStrip v) then .ok (pyStrip v)
  else .error phoneMsg

/-- Full field-processing chain of the serializer for `national_id`
(`CharField(max_length=10)`, same defaults, then `validate_national_id`). -/
def runNidField (v : String) : Except String String :=
  if (pyStrip v).data.length = 0 then .error blankMsg
  else if 10 < (pyStrip v).data.length then .error maxLen10Msg
  else if nidOk (pyStrip v) then .ok (pyStrip v)
  else .error nidMsg

/-- Field-level errors of `is_valid()` computed from the raw values of the
two pattern-checked fields (the other fields' transport is the identity in
this model) together with the three storage existence checks, collected in
field-declaration order. -/
def rawFieldErrors (db : DB) (p : Payload) : List String :=
  (match runPhoneField p.phone_number with
   | .ok _ => []
   | .error e => [e]) ++
  (match runNidField p.national_id with
   | .ok _ => []
   | .error e => [e]) ++
  (if db.policies.any (fun q => q.unique_id == p.policy_id) then
    [policyDupMsg] else []) ++
  (if db.plans.any (fun q => q.unique_id == p.plan_id) then
    [planDupMsg] else []) ++
  (if db.statuses.any (fun q => q.unique_id == p.insured_id) then
    [statusDupMsg] else [])

/-- Request processing from the raw field values: when `is_valid()` collects
no error, `validated_data` carries the trimmed `phone_number` and
`national_id` and the request proceeds with the object-level `validate` and
`create`/`save` on that validated payload; otherwise it is rejected with the
collected errors and the untouched store. -/
def rawPipeline (db : DB) (p : Payload) : Except (List String) Bundle × DB :=
  match (rawFieldErrors db p).isEmpty with
  | true =>
    pipelineAfterFields db
      { p with phone_number := pyStrip p.phone_number,
               national_id := pyStrip p.national_id }
  | false => (.error (rawFieldErrors db p), db)

theorem dropLeadingWs_head {l : List Char} {c : Char} {t : List Char}
    (h : dropLeadingWs l = c :: t) : pyWs c = false := by
  induction l generalizing c t with
  | nil => simp [dropLeadingWs] at h
  | cons a s ih =>
    simp only [dropLeadingWs] at h
    by_cases ha : pyWs a = true
    · rw [ha] at h
      simp only [if_true] at h
      exact ih h
    · have ha' : pyWs a = false := by simpa using ha
      rw [ha'] at h
      simp only [Bool.false_eq_true, if_false, List.cons.injEq] at h
      rw [← h.1]
      exact ha'

theorem pyStrip_reverse (v : String) :
    (pyStrip v).data.reverse =
      dropLeadingWs ((dropLeadingWs v.data).reverse) := by
  simp [pyStrip]

theorem pyDollar_stripped (core : List Char → Bool) (v : String) :
    pyDollarMatch core (pyStrip v).data = core (pyStrip v).data := by
  unfold pyDollarMatch
  cases h : dropLeadingWs ((dropLeadingWs v.data).reverse) with
  | nil =>
    rw [pyStrip_reverse, h]
    simp
  | cons c rest =>
    have hc : pyWs c = false := dropLeadingWs_head h
    have hcn : (c == '\n') = false := by
      cases hb : c == '\n' with
      | false => rfl
      | true =>
        have hceq : c = '\n' := eq_of_beq hb
        rw [hceq] at hc
        exact absurd hc (by decide)
    rw [pyStrip_reverse, h]
    dsimp only
    rw [hcn]
    simp

theorem stripped_phone_iff (v : String) :
    phoneOk (pyStrip v) = true ↔ specPhone09 (pyStrip v).data := by
  unfold phoneOk
  rw [pyDollar_stripped]
  exact phoneCore_iff _

theorem stripped_nid_iff (v : String) :
    nidOk (pyStrip v) = true ↔ specNid10 (pyStrip v).data := by
  unfold nidOk
  rw [pyDollar_stripped]
  exact nidCore_iff _

def newlinePhone : String := "09123456789\n"

def newlineNid : String := "1234567890\n"

def c6db : DB :=
  { insureds := [], insurers := [], policyholders := [], policies := [],
    plans := [], statuses := [] }

/-- Counterexample to C6 as stated: the serializer's `CharField`s strip
leading and trailing whitespace (`trim_whitespace=True` default) before
`validate_phone_number` / `validate_national_id` run, so a raw value with an
extra trailing newline or leading space — one that does not fully match the
pattern — is accepted rather than rejected, with the trimmed value entering
`validated_data` (and storage); and an over-length digit string is rejected
by the `MaxLengthValidator` with a length message, not the `InvalidFormat`
one. -/
theorem c6_whitespace_counterexample :
    runPhoneField newlinePhone = .ok "09123456789" ∧
    ¬ specPhone09 newlinePhone.data ∧
    runPhoneField " 09123456789" = .ok "09123456789" ∧
    runNidField newlineNid = .ok "1234567890" ∧
    ¬ specNid10 newlineNid.data ∧
    runPhoneField "091234567890" = .error maxLen11Msg ∧
    maxLen11Msg ≠ phoneMsg := by
  refine ⟨by decide, ?_, by decide, by decide, ?_, by decide, by decide⟩
  · rintro ⟨ds, hd, hlen, -⟩
    have h1 : newlinePhone.data.length = 12 := by decide
    rw [hd] at h1
    simp [hlen] at h1
  · rintro ⟨hlen, hall⟩
    have hmem : ('\n' : Char) ∈ newlineNid.data := by decide
    exact absurd (hall '\n' hmem) (by decide)

def c6wp : Payload :=
  { insurer := "generic", first_name := "Ali", last_name := "Mohammadi",
    phone_number := "9123456789", national_id := "1234567890",
    birth_date := 19900101, insurer_id := "GEN123",
    policyholder_name := "Fanap", policyholder_id := "FAN456",
    start_date := 20250101, end_date := 20251231, policy_id := "POL790",
    plan_name := "Silver", plan_id := "PLN102", insured_id := "INS203",
    email := none, father_name := none, place_of_issue := none,
    confirmation_date := none }

def c6wnp : Payload :=
  { insurer := "generic", first_name := "Ali", last_name := "Mohammadi",
    phone_number := "09123456789", national_id := "12345abcde",
    birth_date := 19900101, insurer_id := "GEN123",
    policyholder_name := "Fanap", policyholder_id := "FAN456",
    start_date := 20250101, end_date := 20251231, policy_id := "POL790",
    plan_name := "Silver", plan_id := "PLN102", insured_id := "INS203",
    email := none, father_name := none, place_of_issue := none,
    confirmation_date := none }

/-- Claim C6 as amended: each raw value is first stripped of leading and
trailing whitespace (the `CharField` `trim_whitespace` default), so values
differing from a full match only by surrounding whitespace are accepted,
with the stripped value stored; a value that is empty after stripping is
rejected as blank, and a stripped value longer than the field's
`max_length` (11 for `phone_number`, 10 for `national_id`) is rejected with
a length message — in both cases before the regex runs; otherwise the
stripped value must fully match `09` followed by nine digits (respectively
exactly ten digits), else `InvalidFormat`. Every field-level rejection
happens during validation, before any persistence attempt, with the store
unchanged. -/
theorem c6_regex_amended :
    (∀ v t : String, runPhoneField v = .ok t →
      t = pyStrip v ∧ specPhone09 t.data) ∧
    (∀ v : String, 0 < (pyStrip v).data.length →
      (pyStrip v).data.length ≤ 11 → ¬ specPhone09 (pyStrip v).data →
      runPhoneField v = .error phoneMsg) ∧
    (∀ v : String, 11 < (pyStrip v).data.length →
      runPhoneField v = .error maxLen11Msg) ∧
    (∀ v : String, (pyStrip v).data.length = 0 →
      runPhoneField v = .error blankMsg) ∧
    (∀ v t : String, runNidField v = .ok t →
      t = pyStrip v ∧ specNid10 t.data) ∧
    (∀ v : String, 0 < (pyStrip v).data.length →
      (pyStrip v).data.length ≤ 10 → ¬ specNid10 (pyStrip v).data →
      runNidField v = .error nidMsg) ∧
    (∀ v : String, 10 < (pyStrip v).data.length →
      runNidField v = .error maxLen10Msg) ∧
    (∀ v : String, (pyStrip v).data.length = 0 →
      runNidField v = .error blankMsg) ∧
    (∀ (db : DB) (p : Payload),
      isOkE (runPhoneField p.phone_number) = false →
      isOkE (rawPipeline db p).1 = false ∧ (rawPipeline db p).2 = db) ∧
    (∀ (db : DB) (p : Payload),
      isOkE (runNidField p.national_id) = false →
      isOkE (rawPipeline db p).1 = false ∧ (rawPipeline db p).2 = db) := by
  refine ⟨?_, ?_, ?_, ?_, ?_, ?_, ?_, ?_, ?_, ?_⟩
  · intro v t h
    unfold runPhoneField at h
    by_cases h0 : (pyStrip v).data.length = 0
    · rw [if_pos h0] at h; cases h
    · rw [if_neg h0] at h
      by_cases hlen : 11 < (pyStrip v).data.length
      · rw [if_pos hlen] at h; cases h
      · rw [if_neg hlen] at h
        by_cases hok : phoneOk (pyStrip v) = true
        · rw [if_pos hok] at h
          have ht := Except.ok.inj h
          refine ⟨ht.symm, ?_⟩
          rw [← ht]
          exact (stripped_phone_iff v).mp hok
        · have hok' : phoneOk (pyStrip v) = false := by simpa using hok
          rw [hok'] at h
          simp at h
  · intro v h0 hlen hns
    unfold runPhoneField
    rw [if_neg (by omega : ¬ (pyStrip v).data.length = 0),
      if_neg (not_lt.mpr hlen)]
    have hok' : phoneOk (pyStrip v) = false := by
      cases hb : phoneOk (pyStrip v) with
      | false => rfl
      | true => exact absurd ((stripped_phone_iff v).mp hb) hns
    rw [hok']
    simp
  · intro v hlen
    unfold runPhoneField
    rw [if_neg (by omega : ¬ (pyStrip v).data.length = 0), if_pos hlen]
  · intro v h0
    unfold runPhoneField
    rw [if_pos h0]
  · intro v t h
    unfold runNidField at h
    by_cases h0 : (pyStrip v).data.length = 0
    · rw [if_pos h0] at h; cases h
    · rw [if_neg h0] at h
      by_cases hlen : 10 < (pyStrip v).data.length
      · rw [if_pos hlen] at h; cases h
      · rw [if_neg hlen] at h
        by_cases hok : nidOk (pyStrip v) = true
        · rw [if_pos hok] at h
          have ht := Except.ok.inj h
          refine ⟨ht.symm, ?_⟩
          rw [← ht]
          exact (stripped_nid_iff v).mp hok
        · have hok' : nidOk (pyStrip v) = false := by simpa using hok
          rw [hok'] at h
          simp at h
  · intro v h0 hlen hns
    unfold runNidField
    rw [if_neg (by omega : ¬ (pyStrip v).data.length = 0),
      if_neg (not_lt.mpr hlen)]
    have hok' : nidOk (pyStrip v) = false := by
      cases hb : nidOk (pyStrip v) with
      | false => rfl
      | true => exact absurd ((stripped_nid_iff v).mp hb) hns
    rw [hok']
    simp
  · intro v hlen
    unfold runNidField
    rw [if_neg (by omega : ¬ (pyStrip v).data.length = 0), if_pos hlen]
  · intro v h0
    unfold runNidField
    rw [if_pos h0]
  · intro db p h
    cases hr : runPhoneField p.phone_number with
    | ok t => rw [hr] at h; simp [isOkE] at h
    | error e =>
      have hne : (rawFieldErrors db p).isEmpty = false := by
        unfold rawFieldErrors
        rw [hr]
        rfl
      unfold rawPipeline
      rw [hne]
      exact ⟨rfl, rfl⟩
  · intro db p h
    cases hr2 : runNidField p.national_id with
    | ok t => rw [hr2] at h; simp [isOkE] at h
    | error e =>
      have hne : (rawFieldErrors db p).isEmpty = false := by
        unfold rawFieldErrors
        rw [hr2]
        cases hr1 : runPhoneField p.phone_number <;> rfl
      unfold rawPipeline
      rw [hne]
      exact ⟨rfl, rfl⟩

/-- Witness for C6's amended theorem: a leading-space phone value is
accepted with the stripped value stored; an over-length digit string hits
the length error; a phone number missing the leading `0` and a national id
carrying letters are rejected with an unchanged store. -/
theorem c6_regex_amended_witness :
    runPhoneField " 09123456789" = .ok "09123456789" ∧
    ("09123456789" = pyStrip " 09123456789" ∧
      specPhone09 ("09123456789" : String).data) ∧
    11 < (pyStrip "091234567890").data.length ∧
    runPhoneField "091234567890" = .error maxLen11Msg ∧
    isOkE (runPhoneField c6wp.phone_number) = false ∧
    isOkE (rawPipeline c6db c6wp).1 = false ∧
    (rawPipeline c6db c6wp).2 = c6db ∧
    isOkE (runNidField c6wnp.national_id) = false ∧
    isOkE (rawPipeline c6db c6wnp).1 = false ∧
    (rawPipeline c6db c6wnp).2 = c6db :=
  ⟨by decide,
   c6_regex_amended.1 " 09123456789" "09123456789" (by decide),
   by decide,
   c6_regex_amended.2.2.1 "091234567890" (by decide),
   by decide,
   (c6_regex_amended.2.2.2.2.2.2.2.2.1 c6db c6wp (by decide)).1,
   (c6_regex_amended.2.2.2.2.2.2.2.2.1 c6db c6wp (by decide)).2,
   by decide,
   (c6_regex_amended.2.2.2.2.2.2.2.2.2 c6db c6wnp (by decide)).1,
   (c6_regex_amended.2.2.2.2.2.2.2.2.2 c6db c6wnp (by decide)).2⟩

/-! ## Claim C8 — step-level lemmas about the orchestrator -/

theorem saveInsured_fst_nid (p : Payload) (db : DB) :
    ((saveInsured p db).1).national_id = p.national_id := by
  unfold saveInsured
  cases hf : db.insureds.find? (fun i => i.national_id == p.national_id) with
  | some i =>
    dsimp only
    have := List.find?_some hf
    simpa [beq_iff_eq] using this
  | none => rfl

theorem saveInsured_find (p : Payload) (db : DB) :
    (saveInsured p db).2.insureds.find?
      (fun i => i.national_id == p.national_id) =
        some (saveInsured p db).1 := by
  unfold saveInsured
  cases hf : db.insureds.find? (fun i => i.national_id == p.national_id) with
  | some i => exact hf
  | none =>
    dsimp only
    rw [find?_append_none hf]
    simp

theorem saveInsured_of_find {p : Payload} {db : DB} {i : InsuredRec}
    (h : db.insureds.find? (fun j => j.national_id == p.national_id) =
      some i) : saveInsured p db = (i, db) := by
  unfold saveInsured
  rw [h]

theorem saveInsurer_insureds (p : Payload) (db : DB) :
    (saveInsurer p db).2.insureds = db.insureds := by
  unfold saveInsurer
  cases db.insurers.find? (fun i => i.unique_id == p.insurer_id) <;> rfl

theorem saveInsurer_policies (p : Payload) (db : DB) :
    (saveInsurer p db).2.policies = db.policies := by
  unfold saveInsurer
  cases db.insurers.find? (fun i => i.unique_id == p.insurer_id) <;> rfl

theorem saveInsurer_plans (p : Payload) (db : DB) :
    (saveInsurer p db).2.plans = db.plans := by
  unfold saveInsurer
  cases db.insurers.find? (fun i => i.unique_id == p.insurer_id) <;> rfl

theorem saveInsurer_statuses (p : Payload) (db : DB) :
    (saveInsurer p db).2.statuses = db.statuses := by
  unfold saveInsurer
  cases db.insurers.find? (fun i => i.unique_id == p.insurer_id) <;> rfl

theorem saveInsurer_uid (p : Payload) (db : DB) :
    ((saveInsurer p db).1).unique_id = p.insurer_id := by
  unfold saveInsurer
  cases hf : db.insurers.find? (fun i => i.unique_id == p.insurer_id) with
  | some i =>
    dsimp only
    have := List.find?_some hf
    simpa [beq_iff_eq] using this
  | none => rfl

theorem savePolicyholder_insureds (p : Payload) (db : DB) :
    (savePolicyholder p db).2.insureds = db.insureds := by
  unfold savePolicyholder
  cases db.policyholders.find? (fun i => i.unique_id == p.policyholder_id) <;>
    rfl

theorem savePolicyholder_policies (p : Payload) (db : DB) :
    (savePolicyholder p db).2.policies = db.policies := by
  unfold savePolicyholder
  cases db.policyholders.find? (fun i => i.unique_id == p.policyholder_id) <;>
    rfl

theorem savePolicyholder_plans (p : Payload) (db : DB) :
    (savePolicyholder p db).2.plans = db.plans := by
  unfold savePolicyholder
  cases db.policyholders.find? (fun i => i.unique_id == p.policyholder_id) <;>
    rfl

theorem savePolicyholder_statuses (p : Payload) (db : DB) :
    (savePolicyholder p db).2.statuses = db.statuses := by
  unfold savePolicyholder
  cases db.policyholders.find? (fun i => i.unique_id == p.policyholder_id) <;>
    rfl

theorem savePolicyholder_uid (p : Payload) (db : DB) :
    ((savePolicyholder p db).1).unique_id = p.policyholder_id := by
  unfold savePolicyholder
  cases hf : db.policyholders.find?
      (fun i => i.unique_id == p.policyholder_id) with
  | some i =>
    dsimp only
    have := List.find?_some hf
    simpa [beq_iff_eq] using this
  | none => rfl

theorem savePolicy_ok {p : Payload} {ins : InsuredRec} {insr : InsurerRec}
    {ph : PolicyholderRec} {db : DB}
    (hpk : db.policies.any (fun q => q.unique_id == p.policy_id) = false)
    (hcomp : db.policies.any (fun q =>
      q.insured_nid == ins.national_id && q.insurer_uid == insr.unique_id &&
      q.policyholder_uid == ph.unique_id &&
      q.start_date == p.start_date) = false) :
    ∃ pol db', savePolicy p ins insr ph db = .ok (pol, db') ∧
      db'.insureds = db.insureds ∧ db'.plans = db.plans ∧
      db'.statuses = db.statuses := by
  unfold savePolicy
  rw [hpk, hcomp]
  exact ⟨_, _, rfl, rfl, rfl, rfl⟩

theorem savePlan_ok {p : Payload} {pol : PolicyRec} {db : DB}
    (h : db.plans.any (fun q => q.unique_id == p.plan_id) = false) :
    ∃ pl db', savePlan p pol db = .ok (pl, db') ∧
      db'.insureds = db.insureds ∧ db'.statuses = db.statuses := by
  unfold savePlan
  rw [h]
  exact ⟨_, _, rfl, rfl, rfl⟩

theorem saveInsuredStatus_ok {p : Payload} {pol : PolicyRec} {db : DB}
    (h : db.statuses.any (fun q => q.unique_id == p.insured_id) = false) :
    ∃ st db', saveInsuredStatus p pol db = .ok (st, db') ∧
      db'.insureds = db.insureds := by
  unfold saveInsuredStatus
  rw [h]
  exact ⟨_, _, rfl, rfl⟩

theorem saveSteps_ok_state {p : Payload} {db db' : DB} {b : Bundle}
    (h : saveSteps p db = .ok (b, db')) :
    b.insured = (saveInsured p db).1 ∧
    db'.insureds = (saveInsured p db).2.insureds := by
  unfold saveSteps at h
  rcases h1 : saveInsured p db with ⟨ins, db1⟩
  rw [h1] at h
  dsimp only at h
  rcases h2 : saveInsurer p db1 with ⟨insr, db2⟩
  rw [h2] at h
  dsimp only at h
  have e2 : db2.insureds = db1.insureds := by
    have := saveInsurer_insureds p db1
    rw [h2] at this
    exact this
  rcases h3 : savePolicyholder p db2 with ⟨ph, db3⟩
  rw [h3] at h
  dsimp only at h
  have e3 : db3.insureds = db2.insureds := by
    have := savePolicyholder_insureds p db2
    rw [h3] at this
    exact this
  cases h4 : savePolicy p ins insr ph db3 with
  | error e => rw [h4] at h; cases h
  | ok v4 =>
    obtain ⟨pol, db4⟩ := v4
    rw [h4] at h
    dsimp only at h
    have e4 : db4.insureds = db3.insureds := by
      unfold savePolicy at h4
      split at h4
      · cases h4
      · split at h4
        · cases h4
        · cases h4; rfl
    cases h5 : savePlan p pol db4 with
    | error e => rw [h5] at h; cases h
    | ok v5 =>
      obtain ⟨pl, db5⟩ := v5
      rw [h5] at h
      dsimp only at h
      have e5 : db5.insureds = db4.insureds := by
        unfold savePlan at h5
        split at h5
        · cases h5
        · cases h5; rfl
      cases h6 : saveInsuredStatus p pol db5 with
      | error e => rw [h6] at h; cases h
      | ok v6 =>
        obtain ⟨st, db6⟩ := v6
        rw [h6] at h
        dsimp only at h
        have e6 : db6.insureds = db5.insureds := by
          unfold saveInsuredStatus at h6
          split at h6
          · cases h6
          · cases h6; rfl
        have hinj := Except.ok.inj h
        have hb := congrArg Prod.fst hinj
        have hdb := congrArg Prod.snd hinj
        dsimp only at hb hdb
        constructor
        · rw [← hb]
        · rw [← hdb, e6, e5, e4, e3, e2]

theorem save_ok_saveSteps {p : Payload} {db db' : DB} {b : Bundle}
    (h : save p db = (.ok b, db')) : saveSteps p db = .ok (b, db') := by
  unfold save at h
  cases hs : saveSteps p db with
  | ok v =>
    obtain ⟨bb, dd⟩ := v
    rw [hs] at h
    dsimp only at h
    have hb : (Except.ok bb : Except String Bundle) = .ok b :=
      congrArg Prod.fst h
    have hd : dd = db' := congrArg Prod.snd h
    rw [Except.ok.inj hb, hd]
  | error e =>
    rw [hs] at h
    dsimp only at h
    have : (Except.error (translateError e) : Except String Bundle) = .ok b :=
      congrArg Prod.fst h
    cases this

theorem pipeline_ok_save {db db' : DB} {p : Payload} {b : Bundle}
    (h : pipeline db p = (.ok b, db')) : save p db = (.ok b, db') := by
  unfold pipeline at h
  cases he : (runFieldValidation db p).isEmpty with
  | false =>
    rw [he] at h
    dsimp only at h
    have : (Except.error (runFieldValidation db p) :
        Except (List String) Bundle) = .ok b := congrArg Prod.fst h
    cases this
  | true =>
    rw [he] at h
    dsimp only at h
    unfold pipelineAfterFields at h
    cases hc : crossValidate p with
    | error e =>
      rw [hc] at h
      dsimp only at h
      have : (Except.error [e] : Except (List String) Bundle) = .ok b :=
        congrArg Prod.fst h
      cases this
    | ok u =>
      cases u
      rw [hc] at h
      dsimp only at h
      unfold pipelineAfterCross at h
      cases hm : mapKeys (svcKeyMapping (getInsurerService p.insurer))
          (svcMandatory (getInsurerService p.insurer)) p.toDict with
      | error e =>
        rw [hm] at h
        dsimp only at h
        have : (Except.error [e] : Except (List String) Bundle) = .ok b :=
          congrArg Prod.fst h
        cases this
      | ok m =>
        rw [hm] at h
        dsimp only at h
        unfold pipelineAfterMap at h
        cases hs : save p db with
        | mk r dd =>
          cases r with
          | ok bb =>
            rw [hs] at h
            dsimp only at h
            have hb : (Except.ok bb : Except (List String) Bundle) = .ok b :=
              congrArg Prod.fst h
            have hd : dd = db' := congrArg Prod.snd h
            rw [Except.ok.inj hb, hd]
          | error e =>
            rw [hs] at h
            dsimp only at h
            have : (Except.error [e] : Except (List String) Bundle) =
                .ok b := congrArg Prod.fst h
            cases this

theorem pipeline_ok_intro {db db' : DB} {p : Payload} {b : Bundle}
    {m : List (String × FieldVal)}
    (hfv : (runFieldValidation db p).isEmpty = true)
    (hcv : crossValidate p = .ok ())
    (hmk : mapKeys (svcKeyMapping (getInsurerService p.insurer))
      (svcMandatory (getInsurerService p.insurer)) p.toDict = .ok m)
    (hsv : save p db = (.ok b, db')) : pipeline db p = (.ok b, db') := by
  unfold pipeline
  rw [hfv]
  dsimp only
  unfold pipelineAfterFields
  rw [hcv]
  dsimp only
  unfold pipelineAfterCross
  rw [hmk]
  dsimp only
  unfold pipelineAfterMap
  rw [hsv]

theorem hasKey_toDict_email {p : Payload} (he : p.email.isSome = true) :
    hasKey p.toDict "email" = true := by
  cases hp : p.email with
  | none => rw [hp] at he; cases he
  | some v => simp [Payload.toDict, hasKey, hp]

theorem payload_mandatory_hasKey (svc : ServiceKind) (p : Payload)
    (h : svc = ServiceKind.pasargad → p.email.isSome = true) :
    ∀ k, (svcMandatory svc).contains k = true → hasKey p.toDict k = true := by
  intro k hk
  have hmem := containsMem hk
  cases svc with
  | default =>
    simp only [svcMandatory, defaultMandatory, List.mem_cons,
      List.not_mem_nil, or_false] at hmem
    rcases hmem with rfl | rfl | rfl | rfl | rfl | rfl | rfl | rfl | rfl |
      rfl | rfl | rfl | rfl | rfl | rfl <;>
      simp [Payload.toDict, hasKey]
  | hekmat =>
    simp only [svcMandatory, hekmatMandatory, defaultMandatory,
      List.mem_cons, List.not_mem_nil, or_false] at hmem
    rcases hmem with rfl | rfl | rfl | rfl | rfl | rfl | rfl | rfl | rfl |
      rfl | rfl | rfl | rfl | rfl | rfl <;>
      simp [Payload.toDict, hasKey]
  | pasargad =>
    simp only [svcMandatory, pasargadMandatory, List.mem_cons,
      List.not_mem_nil, or_false] at hmem
    rcases hmem with rfl | rfl | rfl | rfl | rfl | rfl | rfl | rfl | rfl |
      rfl | rfl | rfl | rfl | rfl | rfl | rfl
    case inr.inr.inr.inl => exact hasKey_toDict_email (h rfl)
    all_goals simp [Payload.toDict, hasKey]

theorem mapKeys_payload_ok (svc : ServiceKind) (p : Payload)
    (h : svc = ServiceKind.pasargad → p.email.isSome = true) :
    ∃ m, mapKeys (svcKeyMapping svc) (svcMandatory svc) p.toDict = .ok m := by
  unfold mapKeys
  exact mapKeysLoop_ok _ (payload_mandatory_hasKey svc p h)

theorem saveSteps_ok_intro {p : Payload} {db : DB} {i : InsuredRec}
    (hins : saveInsured p db = (i, db))
    (hpk : db.policies.any (fun q => q.unique_id == p.policy_id) = false)
    (hcomp : db.policies.any (fun q =>
      q.insured_nid == i.national_id && q.insurer_uid == p.insurer_id &&
      q.policyholder_uid == p.policyholder_id &&
      q.start_date == p.start_date) = false)
    (hplan : db.plans.any (fun q => q.unique_id == p.plan_id) = false)
    (hstat : db.statuses.any (fun q => q.unique_id == p.insured_id) = false) :
    ∃ b db', saveSteps p db = .ok (b, db') ∧ b.insured = i ∧
      db'.insureds = db.insureds := by
  unfold saveSteps
  rw [hins]
  dsimp only
  rcases h2 : saveInsurer p db with ⟨insr, db2⟩
  have e2i : db2.insureds = db.insureds := by
    have := saveInsurer_insureds p db; rw [h2] at this; exact this
  have e2pol : db2.policies = db.policies := by
    have := saveInsurer_policies p db; rw [h2] at this; exact this
  have e2pl : db2.plans = db.plans := by
    have := saveInsurer_plans p db; rw [h2] at this; exact this
  have e2st : db2.statuses = db.statuses := by
    have := saveInsurer_statuses p db; rw [h2] at this; exact this
  have e2uid : insr.unique_id = p.insurer_id := by
    have := saveInsurer_uid p db; rw [h2] at this; exact this
  rcases h3 : savePolicyholder p db2 with ⟨ph, db3⟩
  have e3i : db3.insureds = db2.insureds := by
    have := savePolicyholder_insureds p db2; rw [h3] at this; exact this
  have e3pol : db3.policies = db2.policies := by
    have := savePolicyholder_policies p db2; rw [h3] at this; exact this
  have e3pl : db3.plans = db2.plans := by
    have := savePolicyholder_plans p db2; rw [h3] at this; exact this
  have e3st : db3.statuses = db2.statuses := by
    have := savePolicyholder_statuses p db2; rw [h3] at this; exact this
  have e3uid : ph.unique_id = p.policyholder_id := by
    have := savePolicyholder_uid p db2; rw [h3] at this; exact this
  have hpk3 : db3.policies.any (fun q => q.unique_id == p.policy_id) =
      false := by
    rw [e3pol, e2pol]; exact hpk
  have hcomp3 : db3.policies.any (fun q =>
      q.insured_nid == i.national_id && q.insurer_uid == insr.unique_id &&
      q.policyholder_uid == ph.unique_id &&
      q.start_date == p.start_date) = false := by
    simp only [e2uid, e3uid, e3pol, e2pol]
    exact hcomp
  obtain ⟨pol, db4, h4, e4i, e4pl, e4st⟩ := savePolicy_ok hpk3 hcomp3
  rw [h4]
  dsimp only
  have hplan4 : db4.plans.any (fun q => q.unique_id == p.plan_id) = false := by
    rw [e4pl, e3pl, e2pl]; exact hplan
  obtain ⟨pl, db5, h5, e5i, e5st⟩ := savePlan_ok hplan4
  rw [h5]
  dsimp only
  have hstat5 : db5.statuses.any (fun q => q.unique_id == p.insured_id) =
      false := by
    rw [e5st, e4st, e3st, e2st]; exact hstat
  obtain ⟨st, db6, h6, e6i⟩ := saveInsuredStatus_ok hstat5
  rw [h6]
  dsimp only
  refine ⟨_, db6, rfl, rfl, ?_⟩
  rw [e6i, e5i, e4i, e3i, e2i]

/-- Claim C8: whenever a submission has succeeded, a second valid submission
sharing its `national_id` — with fresh `policy_id` / `plan_id` /
`insured_id`, valid formats and dates, and a composite
(insured, insurer, policyholder, start_date) tuple not yet present —
succeeds as well, its bundle refers to the very same `InsuredPerson` record
(even when the second payload carries different name, phone, birth-date or
optional-field values), and the insured-person table is left entirely
untouched by the second run: get-or-create finds the existing row and
updates no field. -/
theorem c8_idempotent_insured (db0 db1 : DB) (p1 p2 : Payload) (b1 : Bundle)
    (h1 : pipeline db0 p1 = (.ok b1, db1))
    (hnid : p2.national_id = p1.national_id)
    (hphone : phoneOk p2.phone_number = true)
    (hnidok : nidOk p2.national_id = true)
    (hfp : db1.policies.any (fun q => q.unique_id == p2.policy_id) = false)
    (hfl : db1.plans.any (fun q => q.unique_id == p2.plan_id) = false)
    (hfs : db1.statuses.any (fun q => q.unique_id == p2.insured_id) = false)
    (hdates : p2.start_date < p2.end_date)
    (hconf : ∀ c, p2.confirmation_date = some c → p2.start_date ≤ c)
    (hemail : getInsurerService p2.insurer = ServiceKind.pasargad →
      p2.email.isSome = true)
    (htuple : db1.policies.any (fun q =>
      q.insured_nid == p2.national_id && q.insurer_uid == p2.insurer_id &&
      q.policyholder_uid == p2.policyholder_id &&
      q.start_date == p2.start_date) = false) :
    ∃ b2 db2, pipeline db1 p2 = (.ok b2, db2) ∧
      b2.insured = b1.insured ∧ db2.insureds = db1.insureds := by
  have hsave1 := pipeline_ok_save h1
  have hsteps1 := save_ok_saveSteps hsave1
  obtain ⟨hb1, hdb1⟩ := saveSteps_ok_state hsteps1
  have hfind : db1.insureds.find?
      (fun i => i.national_id == p1.national_id) = some b1.insured := by
    rw [hdb1, hb1]
    exact saveInsured_find p1 db0
  have hb1nid : b1.insured.national_id = p2.national_id := by
    rw [hb1, saveInsured_fst_nid, hnid]
  have hins2 : saveInsured p2 db1 = (b1.insured, db1) := by
    refine saveInsured_of_find ?_
    rw [hnid]
    exact hfind
  have hfv : runFieldValidation db1 p2 = [] := by
    unfold runFieldValidation
    rw [hphone, hnidok, hfp, hfl, hfs]
    simp
  have hfvE : (runFieldValidation db1 p2).isEmpty = true := by
    rw [hfv]; rfl
  have hcv : crossValidate p2 = .ok () := by
    unfold crossValidate
    rw [if_neg (not_le.mpr hdates)]
    cases hc : p2.confirmation_date with
    | none => rfl
    | some c =>
      dsimp only
      rw [if_neg (not_lt.mpr (hconf c hc))]
  obtain ⟨m, hmk⟩ := mapKeys_payload_ok (getInsurerService p2.insurer) p2
    hemail
  have hcomp2 : db1.policies.any (fun q =>
      q.insured_nid == b1.insured.national_id &&
      q.insurer_uid == p2.insurer_id &&
      q.policyholder_uid == p2.policyholder_id &&
      q.start_date == p2.start_date) = false := by
    simp only [hb1nid]
    exact htuple
  obtain ⟨b2, db2, hsteps2, hb2, hdb2⟩ :=
    saveSteps_ok_intro hins2 hfp hcomp2 hfl hfs
  have hsave2 : save p2 db1 = (.ok b2, db2) := by
    unfold save
    rw [hsteps2]
  exact ⟨b2, db2, pipeline_ok_intro hfvE hcv hmk hsave2, hb2, hdb2⟩

def c8db0 : DB :=
  { insureds := [], insurers := [], policyholders := [], policies := [],
    plans := [], statuses := [] }

def c8p1 : Payload :=
  { insurer := "hekmat", first_name := "Reza", last_name := "Rezaei",
    phone_number := "09123456788", national_id := "1234567891",
    birth_date := 19900101, insurer_id := "INS002",
    policyholder_name := "Fanap", policyholder_id := "FAN456",
    start_date := 20250101, end_date := 20251231, policy_id := "POL790",
    plan_name := "Silver", plan_id := "PLN102", insured_id := "INS203",
    email := none, father_name := none, place_of_issue := none,
    confirmation_date := none }

def c8p2 : Payload :=
  { insurer := "hekmat", first_name := "Ali", last_name := "Mohammadi",
    phone_number := "09999999999", national_id := "1234567891",
    birth_date := 19800101, insurer_id := "INS002",
    policyholder_name := "Fanap", policyholder_id := "FAN456",
    start_date := 20250601, end_date := 20260101, policy_id := "POL791",
    plan_name := "Gold", plan_id := "PLN103", insured_id := "INS204",
    email := some "ali@example.com", father_name := some "Hasan",
    place_of_issue := none, confirmation_date := none }

def c8ins1 : InsuredRec :=
  { first_name := "Reza", last_name := "Rezaei", email := none,
    phone_number := "09123456788", national_id := "1234567891",
    birth_date := 19900101, father_name := none, place_of_issue := none }

def c8insr1 : InsurerRec := { name := "hekmat", unique_id := "INS002" }

def c8ph1 : PolicyholderRec := { name := "Fanap", unique_id := "FAN456" }

def c8pol1 : PolicyRec :=
  { unique_id := "POL790", insured_nid := "1234567891",
    insurer_uid := "INS002", policyholder_uid := "FAN456",
    start_date := 20250101, end_date := 20251231,
    confirmation_date := none }

def c8plan1 : PlanRec :=
  { policy_uid := "POL790", name := "Silver", unique_id := "PLN102" }

def c8st1 : InsuredStatusRec :=
  { policy_uid := "POL790", unique_id := "INS203" }

def c8db1 : DB :=
  { insureds := [c8ins1], insurers := [c8insr1], policyholders := [c8ph1],
    policies := [c8pol1], plans := [c8plan1], statuses := [c8st1] }

def c8b1 : Bundle :=
  { insured := c8ins1, insurer := c8insr1, policyholder := c8ph1,
    policy := c8pol1, plan := c8plan1, insured_status := c8st1 }

/-- Witness for C8: a first hekmat-strategy submission on the empty store
succeeds; a second one with the same `national_id` but different name,
phone, birth date and optional fields, fresh identifiers and a later
`start_date` also succeeds, reuses the very same insured record, and leaves
the insured table unchanged. -/
theorem c8_idempotent_insured_witness :
    pipeline c8db0 c8p1 = (.ok c8b1, c8db1) ∧
    c8p2.national_id = c8p1.national_id ∧
    c8p2.first_name ≠ c8p1.first_name ∧
    c8p2.phone_number ≠ c8p1.phone_number ∧
    c8p2.birth_date ≠ c8p1.birth_date ∧
    ∃ b2 db2, pipeline c8db1 c8p2 = (.ok b2, db2) ∧
      b2.insured = c8b1.insured ∧ db2.insureds = c8db1.insureds :=
  ⟨by decide, by decide, by decide, by decide, by decide,
   c8_idempotent_insured c8db0 c8db1 c8p1 c8p2 c8b1 (by decide) (by decide)
     (by decide) (by decide) (by decide) (by decide) (by decide) (by decide)
     (by intro c hc; simp [c8p2] at hc)
     (fun _ => by decide)
     (by decide)⟩
